import Mathlib

/-!
Shallow embedding of the core simulation and decision engine of the
light-cycle arena game ("tronai"): geometry, collision detection, the
flood-fill AI heuristic, the walker (hazard) random walk, the turn input
queue, and the per-tick match engine, together with theorems about them.

Sources: src/unnamed/part_000 (gameLogic) and the Game component in
src/constants.ts (initGame, registerTurn, updateGame).
-/

/-- Grid coordinate; `x`, `y` are JS numbers used only at integer values. -/
structure Coordinate where
  x : Int
  y : Int
deriving DecidableEq, Repr

/-- Direction enum, ordinal encoding UP=0, RIGHT=1, DOWN=2, LEFT=3. -/
inductive Direction where
  | UP
  | RIGHT
  | DOWN
  | LEFT
deriving DecidableEq, Repr

/-- Ordinal value of a direction (src/types: Direction enum). -/
def Direction.toNat : Direction → Nat
  | .UP => 0
  | .RIGHT => 1
  | .DOWN => 2
  | .LEFT => 3

/-- Direction with a given ordinal value mod 4. -/
def dirOfNat (n : Nat) : Direction :=
  match n % 4 with
  | 0 => .UP
  | 1 => .RIGHT
  | 2 => .DOWN
  | _ => .LEFT

/-- The `(d + 3) % 4` left-turn transform used throughout the source. -/
def turnLeftDir (d : Direction) : Direction :=
  dirOfNat ((d.toNat + 3) % 4)

/-- The `(d + 1) % 4` right-turn transform used throughout the source. -/
def turnRightDir (d : Direction) : Direction :=
  dirOfNat ((d.toNat + 1) % 4)

/-- Player record (src/types: Player). -/
structure Player where
  id : Nat
  name : String
  color : String
  head : Coordinate
  trail : List Coordinate
  direction : Direction
  isDead : Bool
  score : Nat
deriving DecidableEq, Repr

/-- Walker (hazard) record (src/types: Walker). -/
structure Walker where
  id : Nat
  position : Coordinate
  moveTimer : Nat
deriving DecidableEq, Repr

/-- Game mode enum (src/types: GameMode). -/
inductive GameMode where
  | PVP
  | PVE
deriving DecidableEq, Repr

/-- Game status enum (src/types: GameStatus). -/
inductive GameStatus where
  | MENU
  | PLAYING
  | PAUSED
  | GAME_OVER
deriving DecidableEq, Repr

/-- `WALKER_SPEED_MOD` from src/constants.ts: walkers move every 2 ticks. -/
def WALKER_SPEED_MOD : Nat := 2

/-- getNextPosition from src/unnamed/part_000 lines 3-14. -/
def getNextPosition (head : Coordinate) (direction : Direction) : Coordinate :=
  match direction with
  | .UP => ⟨head.x, head.y - 1⟩
  | .DOWN => ⟨head.x, head.y + 1⟩
  | .LEFT => ⟨head.x - 1, head.y⟩
  | .RIGHT => ⟨head.x + 1, head.y⟩

/-- checkCollision from src/unnamed/part_000 lines 16-38: wall check, then
membership of the position in any player's trail. -/
def checkCollision (pos : Coordinate) (width height : Int)
    (players : List Player) : Bool :=
  if pos.x < 0 ∨ pos.x ≥ width ∨ pos.y < 0 ∨ pos.y ≥ height then
    true
  else
    players.any (fun p => p.trail.any (fun seg => pos.x == seg.x && pos.y == seg.y))

/-- The four orthogonal neighbors generated inside floodFillCount's loop. -/
def floodNeighbors (curr : Coordinate) : List Coordinate :=
  [⟨curr.x + 1, curr.y⟩, ⟨curr.x - 1, curr.y⟩,
   ⟨curr.x, curr.y + 1⟩, ⟨curr.x, curr.y - 1⟩]

/-- Per-neighbor body of floodFillCount's inner loop: an in-bounds,
non-obstacle, unvisited neighbor is enqueued and marked visited. -/
def floodVisit (w h : Int) (obstacles : List Coordinate)
    (acc : List Coordinate × List Coordinate) (n : Coordinate) :
    List Coordinate × List Coordinate :=
  if 0 ≤ n.x ∧ n.x < w ∧ 0 ≤ n.y ∧ n.y < h ∧ n ∉ obstacles ∧ n ∉ acc.2 then
    (acc.1 ++ [n], n :: acc.2)
  else
    acc

/-- The while-loop of floodFillCount (src/unnamed/part_000 lines 54-81).
The loop runs while the queue is non-empty and `steps < depth * 5`; here
the first argument is the remaining step budget `depth * 5 - steps`. -/
def floodFillLoop (w h : Int) (obstacles : List Coordinate) :
    Nat → List Coordinate → List Coordinate → Nat → Nat
  | 0, _, _, count => count
  | _ + 1, [], _, count => count
  | fuel + 1, curr :: rest, visited, count =>
    let qv := (floodNeighbors curr).foldl (floodVisit w h obstacles) (rest, visited)
    floodFillLoop w h obstacles fuel qv.1 qv.2 (count + 1)

/-- floodFillCount from src/unnamed/part_000 lines 42-83. -/
def floodFillCount (start : Coordinate) (w h : Int)
    (obstacles : List Coordinate) (depth : Nat := 20) : Nat :=
  floodFillLoop w h obstacles (depth * 5) [start] [start] 0

/-- The obstacle set built at the top of getAIMove (lines 106-113): every
trail coordinate of every player, plus every player's head. -/
def obstaclesOf (players : List Player) : List Coordinate :=
  players.foldl (fun acc p => acc ++ p.trail ++ [p.head]) []

/-- The candidate move list of getAIMove before shuffling (lines 100-104):
straight, left, right relative to the current facing. -/
def aiCandidates (currentDir : Direction) : List Direction :=
  [currentDir, turnLeftDir currentDir, turnRightDir currentDir]

/-- A position that is in bounds and not in the obstacle set, i.e. the
negation of getAIMove's immediate-collision test (lines 125-131). -/
def SafePos (pos : Coordinate) (w h : Int) (obstacles : List Coordinate) : Prop :=
  ¬ (pos.x < 0 ∨ pos.x ≥ w ∨ pos.y < 0 ∨ pos.y ≥ h ∨ pos ∈ obstacles)

instance (pos : Coordinate) (w h : Int) (obstacles : List Coordinate) :
    Decidable (SafePos pos w h obstacles) := by
  unfold SafePos; infer_instance

/-- The candidate-scoring loop of getAIMove (lines 115-140): skip
immediately lethal moves, otherwise keep the move whose flood-fill count
strictly exceeds the best so far (`maxSpace` starts at -1). -/
def pickBestAux (head : Coordinate) (w h : Int) (obstacles : List Coordinate) :
    List Direction → Direction → Int → Direction
  | [], best, _ => best
  | m :: rest, best, maxSpace =>
    let nextPos := getNextPosition head m
    if nextPos.x < 0 ∨ nextPos.x ≥ w ∨ nextPos.y < 0 ∨ nextPos.y ≥ h ∨
        nextPos ∈ obstacles then
      pickBestAux head w h obstacles rest best maxSpace
    else
      let space : Int := floodFillCount nextPos w h obstacles
      if space > maxSpace then
        pickBestAux head w h obstacles rest m space
      else
        pickBestAux head w h obstacles rest best maxSpace

/-- getAIMove's loop run over an explicitly given (already shuffled)
candidate order. -/
def getAIMoveOn (order : List Direction) (aiPlayer : Player)
    (players : List Player) (w h : Int) : Direction :=
  pickBestAux aiPlayer.head w h (obstaclesOf players) order aiPlayer.direction (-1)

/-- getAIMove from src/unnamed/part_000 lines 85-143. The
`possibleMoves.sort(() => Math.random() - 0.5)` shuffle is modeled by the
reordering function `σ` applied to the candidate list. -/
def getAIMove (σ : List Direction → List Direction) (aiPlayer : Player)
    (players : List Player) (w h : Int) : Direction :=
  getAIMoveOn (σ (aiCandidates aiPlayer.direction)) aiPlayer players w h

/-- The candidate orthogonal steps of getWalkerMove (lines 152-157). -/
def walkerMoves (currentPos : Coordinate) : List Coordinate :=
  [⟨currentPos.x + 1, currentPos.y⟩, ⟨currentPos.x - 1, currentPos.y⟩,
   ⟨currentPos.x, currentPos.y + 1⟩, ⟨currentPos.x, currentPos.y - 1⟩]

/-- The in-bounds filter of getWalkerMove (lines 160-167). -/
def walkerValidMoves (currentPos : Coordinate) (w h : Int) : List Coordinate :=
  (walkerMoves currentPos).filter
    (fun m => decide (0 ≤ m.x ∧ m.x < w ∧ 0 ≤ m.y ∧ m.y < h))

/-- getWalkerMove from src/unnamed/part_000 lines 146-173. The random
index `Math.floor(Math.random() * validMoves.length)` is modeled by
`choice % length`; the `obstacles` parameter is unused, as in the source. -/
def getWalkerMove (choice : Nat) (currentPos : Coordinate) (w h : Int)
    (_obstacles : List Coordinate) : Coordinate :=
  let validMoves := walkerValidMoves currentPos w h
  if validMoves.isEmpty then currentPos
  else validMoves.getD (choice % validMoves.length) currentPos

/-- A turn intent, 'left' or 'right' (src/constants.ts line 144). -/
inductive Turn where
  | left
  | right
deriving DecidableEq, Repr

/-- registerTurn from src/constants.ts lines 144-160, acting on one
agent's queue: reject when the queue already holds more than 2 entries;
otherwise apply the turn transform to the last planned direction and
append the result when it differs from that direction. -/
def registerTurn (queue : List Direction) (currentDir : Direction)
    (turn : Turn) : List Direction :=
  if queue.length > 2 then queue
  else
    let lastDir := queue.getLast?.getD currentDir
    let newDir :=
      match turn with
      | .left => turnLeftDir lastDir
      | .right => turnRightDir lastDir
    if newDir ≠ lastDir then queue ++ [newDir] else queue

/-- The walker update performed by updateGame step 2 (src/constants.ts
lines 226-232): increment `moveTimer`; once it reaches the cadence
threshold, reset it to 0 and replace the position via getWalkerMove.
The random neighbor index for walker `id` is `wc id`. -/
def stepWalker (wc : Nat → Nat) (w h : Int) (wk : Walker) : Walker :=
  let t := wk.moveTimer + 1
  if t ≥ WALKER_SPEED_MOD then
    { wk with moveTimer := 0,
              position := getWalkerMove (wc wk.id) wk.position w h [] }
  else
    { wk with moveTimer := t }

/-- Concrete AI player used to instantiate the C1 theorem. -/
def c1wP : Player :=
  { id := 2, name := "CPU", color := "#ff003c", head := ⟨1, 1⟩,
    trail := [⟨1, 1⟩], direction := .UP, isDead := false, score := 0 }

/-- Concrete walker used to instantiate the C9 theorem. -/
def c9wk : Walker := { id := 0, position := ⟨0, 0⟩, moveTimer := 1 }

/-- Per-agent input queues keyed by player id (inputQueueRef in
src/constants.ts line 50). -/
abbrev Queues := Nat → List Direction

/-- The mutable state owned by the Game component that updateGame reads
and writes: players, walkers, input queues, mode, status, winner, the
score tally `(p1, p2)`, the game-over latch, and the grid config. -/
structure GameState where
  players : List Player
  walkers : List Walker
  queues : Queues
  mode : GameMode
  status : GameStatus
  winner : Option String
  scores : Nat × Nat
  isGameOver : Bool
  gridWidth : Int
  gridHeight : Int

/-- Step 1 of updateGame (src/constants.ts lines 207-223) for a single
player: dead players are skipped; otherwise one queued turn (if any) is
dequeued and applied, and then, when the mode is PVE and the player id
is 2, getAIMove is called on the current player array and its result is
applied. `done` and `rest` are the already-processed and not-yet-processed
portions of the players array. -/
def dirStep (σ : List Direction → List Direction) (mode : GameMode)
    (w h : Int) (done rest : List Player) (p : Player) (qp : List Direction) :
    Player × List Direction :=
  if p.isDead then (p, qp)
  else
    let pd :=
      match qp with
      | [] => p
      | d :: _ => { p with direction := d }
    let q2 :=
      match qp with
      | [] => qp
      | _ :: ds => ds
    let pd2 :=
      if mode = GameMode.PVE ∧ p.id = 2 then
        let newDir := getAIMove σ pd (done ++ pd :: rest) w h
        if newDir ≠ pd.direction then { pd with direction := newDir } else pd
      else pd
    (pd2, q2)

/-- The players.forEach of updateGame step 1, processing the array in
order while threading the queue map. -/
def phase1Aux (σ : List Direction → List Direction) (mode : GameMode)
    (w h : Int) : List Player → List Player → Queues → List Player × Queues
  | done, [], qs => (done, qs)
  | done, p :: rest, qs =>
    let pq := dirStep σ mode w h done rest p (qs p.id)
    phase1Aux σ mode w h (done ++ [pq.1]) rest
      (fun i => if i = p.id then pq.2 else qs i)

/-- Step 1 of updateGame over the whole players array. -/
def phase1 (σ : List Direction → List Direction) (mode : GameMode)
    (w h : Int) (players : List Player) (qs : Queues) :
    List Player × Queues :=
  phase1Aux σ mode w h [] players qs

/-- Step 3 of updateGame (lines 234-240): each living player appends its
current head to its trail and moves the head one cell along its facing. -/
def movePhase (players : List Player) : List Player :=
  players.map fun p =>
    if p.isDead then p
    else { p with trail := p.trail ++ [p.head],
                  head := getNextPosition p.head p.direction }

/-- Walker-overlap check of updateGame step 4 (lines 253-258) for one
walker: on overlap, push the player's id unless already recorded. -/
def walkerDeathStep (p : Player) (ds : List Nat) (wk : Walker) : List Nat :=
  if p.head.x = wk.position.x ∧ p.head.y = wk.position.y ∧ ¬ ds.contains p.id then
    ds ++ [p.id]
  else ds

/-- Step 4 of updateGame (lines 245-266) for one player: wall/trail
collision via checkCollision, walker overlap, then the head-to-head
check against the first player with a different id. -/
def collectStep (w h : Int) (players : List Player) (walkers : List Walker)
    (deaths : List Nat) (p : Player) : List Nat :=
  if p.isDead then deaths
  else
    let d1 := if checkCollision p.head w h players then deaths ++ [p.id] else deaths
    let d2 := walkers.foldl (walkerDeathStep p) d1
    match players.find? (fun op => op.id != p.id) with
    | none => d2
    | some opp =>
      if opp.isDead = false ∧ p.head.x = opp.head.x ∧ p.head.y = opp.head.y then
        let d3 := if d2.contains p.id then d2 else d2 ++ [p.id]
        if d3.contains opp.id then d3 else d3 ++ [opp.id]
      else d2

/-- The whole collision pass of updateGame step 4, collecting the ids of
players that died this tick (deaths are not yet applied). -/
def collectDeaths (w h : Int) (players : List Player)
    (walkers : List Walker) : List Nat :=
  players.foldl (collectStep w h players walkers) []

/-- `players.find(pl => pl.id === id).isDead = true` (lines 273-276):
mark the first player carrying the given id as dead. -/
def markFirstDead (id : Nat) : List Player → List Player
  | [] => []
  | p :: rest =>
    if p.id = id then { p with isDead := true } :: rest
    else p :: markFirstDead id rest

/-- Apply every collected death (lines 273-276). -/
def applyDeaths (deaths : List Nat) (players : List Player) : List Player :=
  deaths.foldl (fun ps id => markFirstDead id ps) players

/-- The win-condition check ending updateGame (lines 278-294): zero
living players is a DRAW, exactly one ends the match and bumps that
player's score tally (id 1 owns the first tally, any other id the
second), otherwise the match continues. -/
def checkWin (s : GameState) (ps : List Player) (ws : List Walker)
    (qs : Queues) : GameState :=
  let alivePlayers := ps.filter (fun p => !p.isDead)
  match alivePlayers with
  | [] =>
    { s with players := ps, walkers := ws, queues := qs,
             isGameOver := true, winner := some "DRAW",
             status := .GAME_OVER }
  | [winnerPlayer] =>
    { s with players := ps, walkers := ws, queues := qs,
             isGameOver := true, winner := some winnerPlayer.name,
             status := .GAME_OVER,
             scores :=
               if winnerPlayer.id = 1 then (s.scores.1 + 1, s.scores.2)
               else (s.scores.1, s.scores.2 + 1) }
  | _ => { s with players := ps, walkers := ws, queues := qs }

/-- updateGame from src/constants.ts lines 201-295, one simulation tick:
no-op once the game-over latch is set; otherwise inputs/AI, walker
movement, player movement, collision collection, death application, and
the win-condition check, in that order. `σ` models the AI candidate
shuffle and `wc` the walkers' random neighbor choices. -/
def updateGame (σ : List Direction → List Direction) (wc : Nat → Nat)
    (s : GameState) : GameState :=
  if s.isGameOver then s
  else
    let pr := phase1 σ s.mode s.gridWidth s.gridHeight s.players s.queues
    let ws1 := s.walkers.map (stepWalker wc s.gridWidth s.gridHeight)
    let ps2 := movePhase pr.1
    let deaths := collectDeaths s.gridWidth s.gridHeight ps2 ws1
    let ps3 := applyDeaths deaths ps2
    checkWin s ps3 ws1 pr.2

/-- Iterated ticks. -/
def runTicks (σ : List Direction → List Direction) (wc : Nat → Nat) :
    Nat → GameState → GameState
  | 0, s => s
  | n + 1, s => runTicks σ wc n (updateGame σ wc s)

/-- Identity candidate order (one possible shuffle outcome). -/
def idShuffle : List Direction → List Direction := fun l => l

/-- Fixed walker randomness. -/
def zeroChoice : Nat → Nat := fun _ => 0

/-- Every Player field except `direction`. -/
def projAll (p : Player) :
    Nat × String × String × Coordinate × List Coordinate × Bool × Nat :=
  (p.id, p.name, p.color, p.head, p.trail, p.isDead, p.score)

/-- Every Player field except `isDead`. -/
def projNoDead (p : Player) :
    Nat × String × String × Coordinate × List Coordinate × Direction × Nat :=
  (p.id, p.name, p.color, p.head, p.trail, p.direction, p.score)

/-- The single agent of the C2 scenario: (5,5) facing RIGHT, as initGame
builds player 1 (initial trail holds the start position). -/
def c2player : Player :=
  { id := 1, name := "Player 1", color := "#00f3ff", head := ⟨5, 5⟩,
    trail := [⟨5, 5⟩], direction := .RIGHT, isDead := false, score := 0 }

/-- C2 scenario state: 10×10 grid, a single agent, no hazards, no queued
turns. -/
def c2state : GameState :=
  { players := [c2player], walkers := [], queues := fun _ => [],
    mode := .PVP, status := .PLAYING, winner := none, scores := (0, 0),
    isGameOver := false, gridWidth := 10, gridHeight := 10 }

/-- The C2 agent after one tick of the code: moved one cell right, start
position appended to the trail. -/
def c2playerAfter : Player :=
  { id := 1, name := "Player 1", color := "#00f3ff", head := ⟨6, 5⟩,
    trail := [⟨5, 5⟩, ⟨5, 5⟩], direction := .RIGHT, isDead := false, score := 0 }

/-- AI-controlled player used for the C4 counterexample: queue holds UP,
and the cell above the head is on its own trail, so going straight after
the dequeue would be lethal. -/
def c4pA : Player :=
  { id := 2, name := "CPU", color := "#ff003c", head := ⟨1, 1⟩,
    trail := [⟨1, 1⟩, ⟨1, 0⟩], direction := .RIGHT, isDead := false, score := 0 }

/-- Queue map giving player 2 one pending UP turn. -/
def c4qs : Queues := fun i => if i = 2 then [Direction.UP] else []

/-- A game-over state, used to instantiate the C5 frozen-after-game-over
conjunct. -/
def c5stateOver : GameState :=
  { players := [], walkers := [], queues := fun _ => [],
    mode := .PVP, status := .GAME_OVER, winner := some "DRAW",
    scores := (0, 0), isGameOver := true, gridWidth := 10, gridHeight := 10 }

/-- First player of the C10 head-swap witness. -/
def c10p1 : Player :=
  { id := 1, name := "Player 1", color := "#00f3ff", head := ⟨2, 2⟩,
    trail := [⟨2, 2⟩], direction := .RIGHT, isDead := false, score := 0 }

/-- Second player of the C10 head-swap witness, facing the first. -/
def c10p2 : Player :=
  { id := 2, name := "Player 2", color := "#ff003c", head := ⟨3, 2⟩,
    trail := [⟨3, 2⟩], direction := .LEFT, isDead := false, score := 0 }

/-- C10 witness state: the two players are adjacent and facing each
other, so their heads swap in one tick. -/
def c10state : GameState :=
  { players := [c10p1, c10p2], walkers := [], queues := fun _ => [],
    mode := .PVP, status := .PLAYING, winner := none, scores := (0, 0),
    isGameOver := false, gridWidth := 6, gridHeight := 6 }

theorem floodFillLoop_le (w h : Int) (obs : List Coordinate) :
    ∀ (fuel : Nat) (q v : List Coordinate) (c : Nat),
      floodFillLoop w h obs fuel q v c ≤ c + fuel := by
  intro fuel
  induction fuel with
  | zero => intro q v c; cases q <;> simp [floodFillLoop]
  | succ n ih =>
    intro q v c
    cases q with
    | nil => simp [floodFillLoop]
    | cons x rest =>
      have := ih ((floodNeighbors x).foldl (floodVisit w h obs) (rest, v)).1
        ((floodNeighbors x).foldl (floodVisit w h obs) (rest, v)).2 (c + 1)
      simp only [floodFillLoop]
      omega

theorem checkCollision_eq_true_iff (pos : Coordinate) (w h : Int)
    (players : List Player) :
    checkCollision pos w h players = true ↔
      (pos.x < 0 ∨ pos.x ≥ w ∨ pos.y < 0 ∨ pos.y ≥ h ∨
        ∃ p ∈ players, ∃ seg ∈ p.trail, pos.x = seg.x ∧ pos.y = seg.y) := by
  unfold checkCollision
  split
  · rename_i hb
    simp only [true_iff]
    tauto
  · rename_i hnb
    simp only [List.any_eq_true, Bool.and_eq_true, beq_iff_eq]
    constructor
    · rintro ⟨p, hp, seg, hseg, hx, hy⟩
      exact Or.inr (Or.inr (Or.inr (Or.inr ⟨p, hp, seg, hseg, hx, hy⟩)))
    · rintro (h | h | h | h | ⟨p, hp, seg, hseg, hx, hy⟩)
      · exact absurd (Or.inl h) hnb
      · exact absurd (Or.inr (Or.inl h)) hnb
      · exact absurd (Or.inr (Or.inr (Or.inl h))) hnb
      · exact absurd (Or.inr (Or.inr (Or.inr h))) hnb
      · exact ⟨p, hp, seg, hseg, hx, hy⟩

/-- C7: checkCollision returns true iff the position is out of bounds
(x < 0, x ≥ width, y < 0, or y ≥ height) or coincides with some
coordinate in the trail of some player (including the querying agent's
own trail, since all players' trails are scanned). -/
theorem checkCollision_spec (pos : Coordinate) (w h : Int)
    (players : List Player) :
    checkCollision pos w h players = true ↔
      (pos.x < 0 ∨ pos.x ≥ w ∨ pos.y < 0 ∨ pos.y ≥ h ∨
        ∃ p ∈ players, ∃ seg ∈ p.trail, pos.x = seg.x ∧ pos.y = seg.y) :=
  checkCollision_eq_true_iff pos w h players

/-- C8: the bounded flood fill always terminates (it is a total function
on an explicit step budget) and visits at most `depth * 5` cells; with
the default depth of 20 the count is at most 100. -/
theorem floodFillCount_le (start : Coordinate) (w h : Int)
    (obstacles : List Coordinate) (depth : Nat) :
    floodFillCount start w h obstacles depth ≤ depth * 5 ∧
      floodFillCount start w h obstacles ≤ 100 := by
  constructor
  · have := floodFillLoop_le w h obstacles (depth * 5) [start] [start] 0
    simpa [floodFillCount] using this
  · have := floodFillLoop_le w h obstacles (20 * 5) [start] [start] 0
    simpa [floodFillCount] using this

theorem pickBestAux_safe (head : Coordinate) (w h : Int) (obs : List Coordinate) :
    ∀ (l : List Direction) (best : Direction) (ms : Int),
      (0 ≤ ms → SafePos (getNextPosition head best) w h obs) →
      ((0 ≤ ms ∨ ∃ m ∈ l, SafePos (getNextPosition head m) w h obs) →
        SafePos (getNextPosition head (pickBestAux head w h obs l best ms)) w h obs) ∧
      ((ms < 0 ∧ ∀ m ∈ l, ¬ SafePos (getNextPosition head m) w h obs) →
        pickBestAux head w h obs l best ms = best) := by
  intro l
  induction l with
  | nil =>
    intro best ms hinv
    constructor
    · rintro (hms | ⟨m, hm, _⟩)
      · simpa [pickBestAux] using hinv hms
      · cases hm
    · intro _
      simp [pickBestAux]
  | cons m rest ih =>
    intro best ms hinv
    by_cases hc : (getNextPosition head m).x < 0 ∨ (getNextPosition head m).x ≥ w ∨
        (getNextPosition head m).y < 0 ∨ (getNextPosition head m).y ≥ h ∨
        getNextPosition head m ∈ obs
    · have heq : pickBestAux head w h obs (m :: rest) best ms =
          pickBestAux head w h obs rest best ms := by
        simp [pickBestAux, hc]
      have hmsafe : ¬ SafePos (getNextPosition head m) w h obs := fun hs => hs hc
      rw [heq]
      constructor
      · rintro (hms | ⟨m', hm', hsafe'⟩)
        · exact (ih best ms hinv).1 (Or.inl hms)
        · rcases List.mem_cons.mp hm' with hEq | hmem
          · exact absurd hsafe' (hEq ▸ hmsafe)
          · exact (ih best ms hinv).1 (Or.inr ⟨m', hmem, hsafe'⟩)
      · rintro ⟨hms, hall⟩
        exact (ih best ms hinv).2 ⟨hms, fun m' hm' => hall m' (List.mem_cons_of_mem _ hm')⟩
    · have hsafe : SafePos (getNextPosition head m) w h obs := hc
      have hsp : (0 : Int) ≤ (floodFillCount (getNextPosition head m) w h obs : Int) :=
        Int.natCast_nonneg _
      by_cases hgt : ((floodFillCount (getNextPosition head m) w h obs : Int)) > ms
      · have heq : pickBestAux head w h obs (m :: rest) best ms =
            pickBestAux head w h obs rest m
              ((floodFillCount (getNextPosition head m) w h obs : Int)) := by
          simp [pickBestAux, hc, hgt]
        rw [heq]
        constructor
        · intro _
          exact (ih m _ (fun _ => hsafe)).1 (Or.inl hsp)
        · rintro ⟨hms, hall⟩
          exact absurd hsafe (hall m (List.mem_cons_self _ _))
      · have hms0 : (0 : Int) ≤ ms := le_trans hsp (not_lt.mp hgt)
        have heq : pickBestAux head w h obs (m :: rest) best ms =
            pickBestAux head w h obs rest best ms := by
          simp [pickBestAux, hc, hgt]
        rw [heq]
        constructor
        · intro _
          exact (ih best ms hinv).1 (Or.inl hms0)
        · rintro ⟨hms, _⟩
          omega

/-- C1: for any shuffled candidate order (a permutation of the straight,
left, right candidates), whenever at least one of the three candidate
moves leads to a position that is in bounds and outside the obstacle set
(all trails plus all heads), getAIMove returns a direction whose next
position is in bounds and outside the obstacle set; and when all three
candidates are immediately lethal it returns the current direction. -/
theorem getAIMove_safe (σ : List Direction → List Direction) (p : Player)
    (players : List Player) (w h : Int)
    (hperm : (σ (aiCandidates p.direction)).Perm (aiCandidates p.direction)) :
    ((∃ m ∈ aiCandidates p.direction,
        SafePos (getNextPosition p.head m) w h (obstaclesOf players)) →
      SafePos (getNextPosition p.head (getAIMove σ p players w h)) w h
        (obstaclesOf players)) ∧
    ((∀ m ∈ aiCandidates p.direction,
        ¬ SafePos (getNextPosition p.head m) w h (obstaclesOf players)) →
      getAIMove σ p players w h = p.direction) := by
  have base := pickBestAux_safe p.head w h (obstaclesOf players)
    (σ (aiCandidates p.direction)) p.direction (-1) (by intro h0; omega)
  constructor
  · rintro ⟨m, hm, hsafe⟩
    exact base.1 (Or.inr ⟨m, hperm.mem_iff.mpr hm, hsafe⟩)
  · intro hall
    exact base.2 ⟨by norm_num, fun m hm => hall m (hperm.subset hm)⟩

theorem getAIMove_safe_witness :
    SafePos (getNextPosition c1wP.head (getAIMove (fun l => l) c1wP [c1wP] 3 3)) 3 3
      (obstaclesOf [c1wP]) :=
  (getAIMove_safe (fun l => l) c1wP [c1wP] 3 3 (List.Perm.refl _)).1
    ⟨Direction.UP, by decide, by decide⟩

theorem registerTurn_counterexample :
    registerTurn (registerTurn [] Direction.RIGHT Turn.left) Direction.RIGHT Turn.right =
      [Direction.UP, Direction.RIGHT] ∧
    ¬ (registerTurn (registerTurn [] Direction.RIGHT Turn.left) Direction.RIGHT
        Turn.right).length = 1 := by
  decide

/-- C3 amended: from an empty queue, a LEFT request enqueues the left
turn, and a following RIGHT request is NOT dropped: the right turn is
computed from the pending (queued) direction, so it yields the original
direction, which differs from the pending one and is therefore enqueued.
After both requests the queue holds exactly two directions:
the left turn followed by the original direction. -/
theorem registerTurn_reversal (d : Direction) :
    registerTurn (registerTurn [] d .left) d .right = [turnLeftDir d, d] ∧
    (registerTurn (registerTurn [] d .left) d .right).length = 2 := by
  cases d <;> exact ⟨by decide, by decide⟩

/-- C9: getWalkerMove returns a member of the in-bounds neighbor list
when one exists, and the unchanged current position exactly when none
exists; every valid move is an in-bounds orthogonal neighbor distinct
from the current position. The walker tick step replaces the position
via getWalkerMove and resets the timer to 0 exactly when the incremented
timer reaches the cadence threshold, and otherwise only increments it. -/
theorem getWalkerMove_spec (choice : Nat) (pos : Coordinate) (w h : Int)
    (obs : List Coordinate) (wc : Nat → Nat) (wk : Walker) :
    (walkerValidMoves pos w h ≠ [] →
      getWalkerMove choice pos w h obs ∈ walkerValidMoves pos w h) ∧
    (walkerValidMoves pos w h = [] → getWalkerMove choice pos w h obs = pos) ∧
    (∀ m ∈ walkerValidMoves pos w h,
      m ∈ walkerMoves pos ∧ (0 ≤ m.x ∧ m.x < w ∧ 0 ≤ m.y ∧ m.y < h) ∧ m ≠ pos) ∧
    (wk.moveTimer + 1 ≥ WALKER_SPEED_MOD →
      stepWalker wc w h wk =
        { wk with moveTimer := 0,
                  position := getWalkerMove (wc wk.id) wk.position w h [] }) ∧
    (wk.moveTimer + 1 < WALKER_SPEED_MOD →
      stepWalker wc w h wk = { wk with moveTimer := wk.moveTimer + 1 }) := by
  refine ⟨?_, ?_, ?_, ?_, ?_⟩
  · intro hne
    have hlt : choice % (walkerValidMoves pos w h).length <
        (walkerValidMoves pos w h).length :=
      Nat.mod_lt _ (List.length_pos.mpr hne)
    have hemp : (walkerValidMoves pos w h).isEmpty = false := by
      cases hval : walkerValidMoves pos w h with
      | nil => exact absurd hval hne
      | cons a l => simp [hval, List.isEmpty]
    simp only [getWalkerMove, hemp, Bool.false_eq_true, if_false]
    rw [List.getD_eq_getElem _ _ hlt]
    exact List.getElem_mem _
  · intro hnil
    unfold getWalkerMove
    simp [hnil]
  · intro m hm
    have hmem : m ∈ walkerMoves pos := List.mem_of_mem_filter hm
    have hprop : 0 ≤ m.x ∧ m.x < w ∧ 0 ≤ m.y ∧ m.y < h := by
      have := List.of_mem_filter hm
      exact of_decide_eq_true this
    refine ⟨hmem, hprop, ?_⟩
    have : m = (⟨pos.x + 1, pos.y⟩ : Coordinate) ∨
        m = (⟨pos.x - 1, pos.y⟩ : Coordinate) ∨
        m = (⟨pos.x, pos.y + 1⟩ : Coordinate) ∨
        m = (⟨pos.x, pos.y - 1⟩ : Coordinate) := by
      simpa [walkerMoves] using hmem
    rcases this with hEq | hEq | hEq | hEq <;>
      · subst hEq
        intro hcontra
        rw [Coordinate.mk.injEq] at hcontra
        omega
  · intro hge
    unfold stepWalker
    simp [hge]
  · intro hlt
    unfold stepWalker
    rw [if_neg (by omega)]

theorem getWalkerMove_spec_witness :
    getWalkerMove 0 ⟨0, 0⟩ 2 2 [] ∈ walkerValidMoves ⟨0, 0⟩ 2 2 ∧
    stepWalker (fun _ => 0) 2 2 c9wk =
      { c9wk with moveTimer := 0,
                  position := getWalkerMove ((fun _ => 0) c9wk.id) c9wk.position 2 2 [] } :=
  ⟨(getWalkerMove_spec 0 ⟨0, 0⟩ 2 2 [] (fun _ => 0) c9wk).1 (by decide),
   (getWalkerMove_spec 0 c9wk.position 2 2 [] (fun _ => 0) c9wk).2.2.2.1 (by decide)⟩

theorem singleAgent5Ticks_counterexample :
    ¬ ((runTicks idShuffle zeroChoice 5 c2state).players.map
        (fun p => (p.head, p.isDead, p.trail.length)) =
      [((⟨10, 5⟩ : Coordinate), true, 5)]) := by
  decide

/-- C2 amended: on the 10×10 single-agent scenario the code does not run
the agent into the wall: the very first tick leaves exactly one living
agent, so the win-condition check ends the match immediately (winner =
the agent, score tally (1,0)), and every later tick is a no-op behind
the game-over latch. After 5 ticks the head is (6,5), the agent is
alive, and the trail length is 2 (the initial start cell plus the one
cell appended on tick 1). -/
theorem singleAgent5Ticks_actual :
    (runTicks idShuffle zeroChoice 5 c2state).players = [c2playerAfter] ∧
    c2playerAfter.head = ⟨6, 5⟩ ∧
    c2playerAfter.isDead = false ∧
    c2playerAfter.trail.length = 2 ∧
    (runTicks idShuffle zeroChoice 1 c2state).isGameOver = true ∧
    (runTicks idShuffle zeroChoice 1 c2state).winner = some "Player 1" ∧
    (runTicks idShuffle zeroChoice 1 c2state).scores = (1, 0) ∧
    (runTicks idShuffle zeroChoice 5 c2state).status = GameStatus.GAME_OVER := by
  refine ⟨?_, ?_, ?_, ?_, ?_, ?_, ?_, ?_⟩ <;> decide

theorem aiQueue_counterexample :
    ¬ ((phase1 idShuffle GameMode.PVE 3 3 [c4pA] c4qs).1.map Player.direction =
        [Direction.UP]) ∧
    (phase1 idShuffle GameMode.PVE 3 3 [c4pA] c4qs).1.map Player.direction =
      [Direction.LEFT] := by
  constructor <;> decide

/-- C4 corrected: in tick step 1 the two direction sources are NOT
mutually exclusive. For a living agent with a non-empty queue the oldest
queued turn is dequeued and applied first, and then, when the agent is
AI-controlled (PVE mode, id 2), getAIMove is also called — with the
dequeued direction as the current facing — and its result becomes the
final facing, overriding the dequeued direction. A non-AI agent keeps
the dequeued direction. -/
theorem dirStep_sources (σ : List Direction → List Direction)
    (mode : GameMode) (w h : Int) (done rest : List Player) (p : Player)
    (d : Direction) (ds : List Direction) (halive : p.isDead = false) :
    (dirStep σ mode w h done rest p (d :: ds)).2 = ds ∧
    (mode = GameMode.PVE → p.id = 2 →
      (dirStep σ mode w h done rest p (d :: ds)).1.direction =
        getAIMove σ { p with direction := d }
          (done ++ { p with direction := d } :: rest) w h) ∧
    ((mode = GameMode.PVP ∨ p.id ≠ 2) →
      (dirStep σ mode w h done rest p (d :: ds)).1.direction = d) := by
  refine ⟨?_, ?_, ?_⟩
  · simp [dirStep, halive]
  · intro hm hid
    simp only [dirStep, halive, Bool.false_eq_true, if_false, hm, hid,
      and_self, if_true]
    split
    · rfl
    · rename_i hne
      rw [not_not] at hne
      simp [hne]
  · rintro (hm | hid)
    · simp [dirStep, halive, hm]
    · simp [dirStep, halive, hid]

theorem dirStep_sources_witness :
    (dirStep idShuffle GameMode.PVE 3 3 [] [] c4pA
        (Direction.UP :: [])).2 = [] ∧
    (dirStep idShuffle GameMode.PVE 3 3 [] [] c4pA
        (Direction.UP :: [])).1.direction =
      getAIMove idShuffle { c4pA with direction := Direction.UP }
        ([] ++ { c4pA with direction := Direction.UP } :: []) 3 3 :=
  ⟨(dirStep_sources idShuffle GameMode.PVE 3 3 [] [] c4pA Direction.UP [] rfl).1,
   (dirStep_sources idShuffle GameMode.PVE 3 3 [] [] c4pA Direction.UP [] rfl).2.1
     rfl rfl⟩

/-- C5: the win-condition check. After the game-over latch is set every
further tick is a no-op (so the score is mutated at most once per
match). At the end of a live tick: zero living players → GAME_OVER,
winner DRAW, scores unchanged; exactly one living player → GAME_OVER,
that player is the winner and its tally (first for id 1, second
otherwise) is incremented by exactly 1; two or more living players →
status, winner, latch and scores all unchanged (the match stays in
PLAYING). -/
theorem checkWin_spec :
    (∀ (σ : List Direction → List Direction) (wc : Nat → Nat) (s : GameState),
      s.isGameOver = true → updateGame σ wc s = s) ∧
    (∀ (s : GameState) (ps : List Player) (ws : List Walker) (qs : Queues),
      ps.filter (fun p => !p.isDead) = [] →
        (checkWin s ps ws qs).status = GameStatus.GAME_OVER ∧
        (checkWin s ps ws qs).isGameOver = true ∧
        (checkWin s ps ws qs).winner = some "DRAW" ∧
        (checkWin s ps ws qs).scores = s.scores) ∧
    (∀ (s : GameState) (ps : List Player) (ws : List Walker) (qs : Queues)
        (wp : Player),
      ps.filter (fun p => !p.isDead) = [wp] →
        (checkWin s ps ws qs).status = GameStatus.GAME_OVER ∧
        (checkWin s ps ws qs).isGameOver = true ∧
        (checkWin s ps ws qs).winner = some wp.name ∧
        (checkWin s ps ws qs).scores =
          (if wp.id = 1 then (s.scores.1 + 1, s.scores.2)
           else (s.scores.1, s.scores.2 + 1))) ∧
    (∀ (s : GameState) (ps : List Player) (ws : List Walker) (qs : Queues),
      2 ≤ (ps.filter (fun p => !p.isDead)).length →
        (checkWin s ps ws qs).status = s.status ∧
        (checkWin s ps ws qs).isGameOver = s.isGameOver ∧
        (checkWin s ps ws qs).winner = s.winner ∧
        (checkWin s ps ws qs).scores = s.scores) := by
  refine ⟨?_, ?_, ?_, ?_⟩
  · intro σ wc s hover
    simp [updateGame, hover]
  · intro s ps ws qs hfil
    simp [checkWin, hfil]
  · intro s ps ws qs wp hfil
    simp [checkWin, hfil]
  · intro s ps ws qs hlen
    rcases hfil : ps.filter (fun p => !p.isDead) with _ | ⟨a, _ | ⟨b, t⟩⟩
    · rw [hfil] at hlen; simp at hlen
    · rw [hfil] at hlen; simp at hlen
    · simp [checkWin, hfil]

theorem checkWin_spec_witness :
    updateGame idShuffle zeroChoice c5stateOver = c5stateOver ∧
    (checkWin c5stateOver [{ c2player with isDead := true }] []
        (fun _ => [])).winner = some "DRAW" ∧
    (checkWin c5stateOver [c2player] [] (fun _ => [])).scores = (1, 0) :=
  ⟨checkWin_spec.1 idShuffle zeroChoice c5stateOver rfl,
   (checkWin_spec.2.1 c5stateOver [{ c2player with isDead := true }] []
      (fun _ => []) (by decide)).2.2.1,
   by
    have := (checkWin_spec.2.2.1 c5stateOver [c2player] [] (fun _ => [])
      c2player (by decide)).2.2.2
    simpa using this⟩

theorem dirStep_projAll (σ : List Direction → List Direction)
    (mode : GameMode) (w h : Int) (done rest : List Player) (p : Player)
    (qp : List Direction) :
    projAll (dirStep σ mode w h done rest p qp).1 = projAll p := by
  unfold dirStep
  split
  · rfl
  · cases qp <;> simp only [projAll] <;> split <;> (try split) <;> rfl

theorem phase1Aux_projAll (σ : List Direction → List Direction)
    (mode : GameMode) (w h : Int) :
    ∀ (rest done : List Player) (qs : Queues),
      (phase1Aux σ mode w h done rest qs).1.map projAll =
        (done ++ rest).map projAll := by
  intro rest
  induction rest with
  | nil => intro done qs; simp [phase1Aux]
  | cons p rest ih =>
    intro done qs
    simp only [phase1Aux]
    rw [ih]
    simp [dirStep_projAll]

theorem markFirstDead_projNoDead (id : Nat) :
    ∀ ps : List Player,
      (markFirstDead id ps).map projNoDead = ps.map projNoDead := by
  intro ps
  induction ps with
  | nil => rfl
  | cons p rest ih =>
    unfold markFirstDead
    split
    · simp [projNoDead]
    · simp [ih]

theorem applyDeaths_projNoDead :
    ∀ (ds : List Nat) (ps : List Player),
      (applyDeaths ds ps).map projNoDead = ps.map projNoDead := by
  intro ds
  induction ds with
  | nil => intro ps; rfl
  | cons d ds ih =>
    intro ps
    show (applyDeaths ds (markFirstDead d ps)).map projNoDead = _
    rw [ih, markFirstDead_projNoDead]

theorem checkWin_players (s : GameState) (ps : List Player)
    (ws : List Walker) (qs : Queues) : (checkWin s ps ws qs).players = ps := by
  unfold checkWin
  rcases hfil : ps.filter (fun p => !p.isDead) with _ | ⟨a, _ | ⟨b, t⟩⟩ <;>
    simp [hfil]

/-- C6: over one live tick, a player that starts the tick alive has its
current head appended to its trail (the trail grows by exactly 1 and
never shrinks), while a player that starts the tick dead keeps its trail
and head unchanged. Players are matched positionally between the pre-
and post-tick player arrays. -/
theorem trail_tick_spec (σ : List Direction → List Direction)
    (wc : Nat → Nat) (s : GameState) (hlive : s.isGameOver = false)
    (i : Nat) (p q : Player)
    (hp : s.players.get? i = some p)
    (hq : (updateGame σ wc s).players.get? i = some q) :
    (p.isDead = false →
      q.trail = p.trail ++ [p.head] ∧ q.trail.length = p.trail.length + 1) ∧
    (p.isDead = true → q.trail = p.trail ∧ q.head = p.head) := by
  have hupd : (updateGame σ wc s).players =
      applyDeaths
        (collectDeaths s.gridWidth s.gridHeight
          (movePhase (phase1 σ s.mode s.gridWidth s.gridHeight s.players s.queues).1)
          (s.walkers.map (stepWalker wc s.gridWidth s.gridHeight)))
        (movePhase (phase1 σ s.mode s.gridWidth s.gridHeight s.players s.queues).1) := by
    simp [updateGame, hlive, checkWin_players]
  have h1 : ((phase1 σ s.mode s.gridWidth s.gridHeight s.players s.queues).1).map projAll =
      s.players.map projAll := by
    have := phase1Aux_projAll σ s.mode s.gridWidth s.gridHeight s.players [] s.queues
    simpa [phase1] using this
  have hp1 : (((phase1 σ s.mode s.gridWidth s.gridHeight s.players s.queues).1).map
      projAll).get? i = some (projAll p) := by
    rw [h1, List.get?_map, hp]; rfl
  rw [List.get?_map] at hp1
  obtain ⟨a, ha, hpa⟩ := Option.map_eq_some'.mp hp1
  have hq3 : (applyDeaths
      (collectDeaths s.gridWidth s.gridHeight
        (movePhase (phase1 σ s.mode s.gridWidth s.gridHeight s.players s.queues).1)
        (s.walkers.map (stepWalker wc s.gridWidth s.gridHeight)))
      (movePhase (phase1 σ s.mode s.gridWidth s.gridHeight s.players s.queues).1)).get? i
      = some q := by
    rw [← hupd]; exact hq
  have hq4 : ((applyDeaths
      (collectDeaths s.gridWidth s.gridHeight
        (movePhase (phase1 σ s.mode s.gridWidth s.gridHeight s.players s.queues).1)
        (s.walkers.map (stepWalker wc s.gridWidth s.gridHeight)))
      (movePhase (phase1 σ s.mode s.gridWidth s.gridHeight s.players s.queues).1)).map
      projNoDead).get? i = some (projNoDead q) := by
    rw [List.get?_map, hq3]; rfl
  rw [applyDeaths_projNoDead, List.get?_map] at hq4
  have hmv : (movePhase (phase1 σ s.mode s.gridWidth s.gridHeight s.players s.queues).1).get? i =
      some (if a.isDead then a
        else { a with trail := a.trail ++ [a.head],
                      head := getNextPosition a.head a.direction }) := by
    unfold movePhase
    rw [List.get?_map, ha]
    rfl
  rw [hmv] at hq4
  have hqn : projNoDead q = projNoDead (if a.isDead then a
      else { a with trail := a.trail ++ [a.head],
                    head := getNextPosition a.head a.direction }) := by
    simp only [Option.map_some'] at hq4
    exact (Option.some_inj.mp hq4).symm
  have haid : a.head = p.head ∧ a.trail = p.trail ∧ a.isDead = p.isDead := by
    unfold projAll at hpa
    simp only [Prod.mk.injEq] at hpa
    exact ⟨hpa.2.2.2.1, hpa.2.2.2.2.1, hpa.2.2.2.2.2.1⟩
  constructor
  · intro hdead
    have haD : a.isDead = false := by rw [haid.2.2, hdead]
    rw [haD] at hqn
    simp only [Bool.false_eq_true, if_false] at hqn
    unfold projNoDead at hqn
    simp only [Prod.mk.injEq] at hqn
    have htr : q.trail = a.trail ++ [a.head] := hqn.2.2.2.2.1
    rw [haid.2.1, haid.1] at htr
    exact ⟨htr, by simp [htr]⟩
  · intro hdead
    have haD : a.isDead = true := by rw [haid.2.2, hdead]
    rw [haD] at hqn
    simp only [if_true] at hqn
    unfold projNoDead at hqn
    simp only [Prod.mk.injEq] at hqn
    exact ⟨hqn.2.2.2.2.1.trans haid.2.1, hqn.2.2.2.1.trans haid.1⟩

theorem trail_tick_spec_witness :
    (c2player.isDead = false →
      c2playerAfter.trail = c2player.trail ++ [c2player.head] ∧
      c2playerAfter.trail.length = c2player.trail.length + 1) ∧
    (c2player.isDead = true →
      c2playerAfter.trail = c2player.trail ∧
      c2playerAfter.head = c2player.head) :=
  trail_tick_spec idShuffle zeroChoice c2state rfl 0 c2player c2playerAfter
    (by rfl) (by decide)

theorem checkCollision_of_trail_mem (pos : Coordinate) (w h : Int)
    (players : List Player) (p : Player) (hp : p ∈ players)
    (seg : Coordinate) (hseg : seg ∈ p.trail)
    (hx : pos.x = seg.x) (hy : pos.y = seg.y) :
    checkCollision pos w h players = true :=
  (checkCollision_eq_true_iff pos w h players).mpr
    (Or.inr (Or.inr (Or.inr (Or.inr ⟨p, hp, seg, hseg, hx, hy⟩))))

theorem mem_of_ite_append {x : Nat} {c : Prop} [Decidable c]
    {ds l : List Nat} (hx : x ∈ ds) : x ∈ (if c then ds else ds ++ l) := by
  split
  · exact hx
  · exact List.mem_append_left _ hx

theorem walkerDeaths_mono (p : Player) (x : Nat) :
    ∀ (ws : List Walker) (ds : List Nat), x ∈ ds →
      x ∈ ws.foldl (walkerDeathStep p) ds := by
  intro ws
  induction ws with
  | nil => intro ds hx; exact hx
  | cons wk ws ih =>
    intro ds hx
    rw [List.foldl_cons]
    apply ih
    unfold walkerDeathStep
    split
    · exact List.mem_append_left _ hx
    · exact hx

theorem collectStep_mono (w h : Int) (players : List Player)
    (ws : List Walker) (ds : List Nat) (p : Player) (x : Nat)
    (hx : x ∈ ds) : x ∈ collectStep w h players ws ds p := by
  simp only [collectStep]
  split
  · exact hx
  · have h1 : x ∈ (if checkCollision p.head w h players then ds ++ [p.id] else ds) := by
      split
      · exact List.mem_append_left _ hx
      · exact hx
    have h2 : x ∈ ws.foldl (walkerDeathStep p)
        (if checkCollision p.head w h players then ds ++ [p.id] else ds) :=
      walkerDeaths_mono p x ws _ h1
    cases hfind : players.find? (fun op => op.id != p.id) with
    | none => simp only [hfind]; exact h2
    | some opp =>
      simp only [hfind]
      split
      · exact mem_of_ite_append (mem_of_ite_append h2)
      · exact h2

theorem collectStep_self (w h : Int) (players : List Player)
    (ws : List Walker) (ds : List Nat) (p : Player)
    (hd : p.isDead = false) (hc : checkCollision p.head w h players = true) :
    p.id ∈ collectStep w h players ws ds p := by
  simp only [collectStep]
  rw [if_neg (by simp [hd]), if_pos hc]
  have h1 : p.id ∈ ds ++ [p.id] :=
    List.mem_append_right _ (List.mem_singleton_self _)
  have h2 : p.id ∈ ws.foldl (walkerDeathStep p) (ds ++ [p.id]) :=
    walkerDeaths_mono p p.id ws _ h1
  cases hfind : players.find? (fun op => op.id != p.id) with
  | none => simp only [hfind]; exact h2
  | some opp =>
    simp only [hfind]
    split
    · exact mem_of_ite_append (mem_of_ite_append h2)
    · exact h2

theorem applyDeaths_pair_dead :
    ∀ (ds : List Nat) (a b : Player), a.id ≠ b.id →
      (a.isDead = true ∨ a.id ∈ ds) → (b.isDead = true ∨ b.id ∈ ds) →
      ∀ r ∈ applyDeaths ds [a, b], r.isDead = true := by
  intro ds
  induction ds with
  | nil =>
    intro a b hne ha hb r hr
    have ha2 : a.isDead = true := by
      rcases ha with h | h
      · exact h
      · exact absurd h (List.not_mem_nil _)
    have hb2 : b.isDead = true := by
      rcases hb with h | h
      · exact h
      · exact absurd h (List.not_mem_nil _)
    have hr2 : r = a ∨ r = b := by simpa [applyDeaths] using hr
    rcases hr2 with h | h <;> subst h
    · exact ha2
    · exact hb2
  | cons dh ds ih =>
    intro a b hne ha hb r hr
    have hstep : applyDeaths (dh :: ds) [a, b] =
        applyDeaths ds (markFirstDead dh [a, b]) := rfl
    rw [hstep] at hr
    by_cases hA : a.id = dh
    · have hm : markFirstDead dh [a, b] = [{ a with isDead := true }, b] := by
        simp [markFirstDead, hA]
      rw [hm] at hr
      refine ih { a with isDead := true } b (by simpa using hne) (Or.inl rfl) ?_ r hr
      rcases hb with h | h
      · exact Or.inl h
      · rcases List.mem_cons.mp h with h1 | h2
        · exact absurd (hA.trans h1.symm) hne
        · exact Or.inr h2
    · by_cases hB : b.id = dh
      · have hm : markFirstDead dh [a, b] = [a, { b with isDead := true }] := by
          simp [markFirstDead, hA, hB]
        rw [hm] at hr
        refine ih a { b with isDead := true } (by simpa using hne) ?_ (Or.inl rfl) r hr
        rcases ha with h | h
        · exact Or.inl h
        · rcases List.mem_cons.mp h with h1 | h2
          · exact absurd h1 hA
          · exact Or.inr h2
      · have hm : markFirstDead dh [a, b] = [a, b] := by
          simp [markFirstDead, hA, hB]
        rw [hm] at hr
        refine ih a b hne ?_ ?_ r hr
        · rcases ha with h | h
          · exact Or.inl h
          · rcases List.mem_cons.mp h with h1 | h2
            · exact absurd h1 hA
            · exact Or.inr h2
        · rcases hb with h | h
          · exact Or.inl h
          · rcases List.mem_cons.mp h with h1 | h2
            · exact absurd h1 hB
            · exact Or.inr h2

/-- C10: when the two players of a tick both survive step 1 with
directions that make them exchange head positions (each post-move head
equals the other's pre-move head), both are marked dead in that same
tick: step 3 appends each pre-move head to its owner's trail before the
collision pass, so each new head lies on the opponent's trail even
though the two heads never occupy the same cell. -/
theorem headSwap_bothDead (σ : List Direction → List Direction)
    (wc : Nat → Nat) (s : GameState) (q1 q2 : Player)
    (hng : s.isGameOver = false)
    (hps : (phase1 σ s.mode s.gridWidth s.gridHeight s.players s.queues).1 = [q1, q2])
    (h1 : q1.isDead = false) (h2 : q2.isDead = false)
    (hid : q1.id ≠ q2.id)
    (hx1 : getNextPosition q1.head q1.direction = q2.head)
    (hx2 : getNextPosition q2.head q2.direction = q1.head) :
    (updateGame σ wc s).players.all (fun p => p.isDead) = true := by
  set ws1 := s.walkers.map (stepWalker wc s.gridWidth s.gridHeight) with hws1
  obtain ⟨m1, hm1⟩ : ∃ m : Player,
      m = { q1 with trail := q1.trail ++ [q1.head],
                    head := getNextPosition q1.head q1.direction } := ⟨_, rfl⟩
  obtain ⟨m2, hm2⟩ : ∃ m : Player,
      m = { q2 with trail := q2.trail ++ [q2.head],
                    head := getNextPosition q2.head q2.direction } := ⟨_, rfl⟩
  have hmv : movePhase [q1, q2] = [m1, m2] := by
    rw [hm1, hm2]
    simp [movePhase, h1, h2]
  have hupd : (updateGame σ wc s).players =
      applyDeaths (collectDeaths s.gridWidth s.gridHeight [m1, m2] ws1) [m1, m2] := by
    simp only [updateGame, hng, Bool.false_eq_true, if_false, phase1]
    rw [show phase1Aux σ s.mode s.gridWidth s.gridHeight [] s.players s.queues =
      phase1 σ s.mode s.gridWidth s.gridHeight s.players s.queues from rfl]
    rw [hps, hmv, checkWin_players]
  have hc1 : checkCollision m1.head s.gridWidth s.gridHeight [m1, m2] = true :=
    checkCollision_of_trail_mem m1.head s.gridWidth s.gridHeight [m1, m2] m2
      (List.mem_cons_of_mem _ (List.mem_cons_self _ _)) q2.head
      (by rw [hm2]; exact List.mem_append_right _ (List.mem_singleton_self _))
      (by rw [hm1]; exact congrArg Coordinate.x hx1)
      (by rw [hm1]; exact congrArg Coordinate.y hx1)
  have hc2 : checkCollision m2.head s.gridWidth s.gridHeight [m1, m2] = true :=
    checkCollision_of_trail_mem m2.head s.gridWidth s.gridHeight [m1, m2] m1
      (List.mem_cons_self _ _) q1.head
      (by rw [hm1]; exact List.mem_append_right _ (List.mem_singleton_self _))
      (by rw [hm2]; exact congrArg Coordinate.x hx2)
      (by rw [hm2]; exact congrArg Coordinate.y hx2)
  have hfold : collectDeaths s.gridWidth s.gridHeight [m1, m2] ws1 =
      collectStep s.gridWidth s.gridHeight [m1, m2] ws1
        (collectStep s.gridWidth s.gridHeight [m1, m2] ws1 [] m1) m2 := by
    simp [collectDeaths]
  have hm1d : m1.isDead = false := by rw [hm1]; exact h1
  have hm2d : m2.isDead = false := by rw [hm2]; exact h2
  have hd1 : m1.id ∈ collectStep s.gridWidth s.gridHeight [m1, m2] ws1 [] m1 :=
    collectStep_self _ _ _ _ _ _ hm1d hc1
  have hd1b : m1.id ∈ collectStep s.gridWidth s.gridHeight [m1, m2] ws1
      (collectStep s.gridWidth s.gridHeight [m1, m2] ws1 [] m1) m2 :=
    collectStep_mono _ _ _ _ _ _ _ hd1
  have hd2 : m2.id ∈ collectStep s.gridWidth s.gridHeight [m1, m2] ws1
      (collectStep s.gridWidth s.gridHeight [m1, m2] ws1 [] m1) m2 :=
    collectStep_self _ _ _ _ _ _ hm2d hc2
  have hmid : m1.id ≠ m2.id := by
    rw [hm1, hm2]
    simpa using hid
  rw [hupd, hfold, List.all_eq_true]
  intro r hr
  have := applyDeaths_pair_dead
    (collectStep s.gridWidth s.gridHeight [m1, m2] ws1
      (collectStep s.gridWidth s.gridHeight [m1, m2] ws1 [] m1) m2)
    m1 m2 hmid (Or.inr hd1b) (Or.inr hd2) r hr
  simpa using this

theorem headSwap_bothDead_witness :
    (updateGame idShuffle zeroChoice c10state).players.all
      (fun p => p.isDead) = true :=
  headSwap_bothDead idShuffle zeroChoice c10state c10p1 c10p2 rfl (by decide)
    rfl rfl (by decide) (by decide) (by decide)
